import Mathlib

/-!
Verification development for the line_accounting_bot command interpreter.

The Go source (handler/handler.go, model/category.go, model/transaction.go,
db/db.go) is shallowly embedded: the PostgreSQL tables become in-memory lists,
every store-layer function consumes one entry of an injected failure schedule
(modelling a database round trip that may fail), and the handlers are direct
translations of the Go control flow.  The schema constraints created by
db.createTables, in particular UNIQUE(user_id, name) on categories and the
category foreign key on transactions, are part of the insert/update semantics.
-/

/-- Embeds the categories table row (model/category.go, struct Category). -/
structure Category where
  id : Nat
  userID : String
  name : String
  ctype : String
deriving DecidableEq

/-- Embeds a calendar instant in UTC.  Go time.Time values are compared here
through the lexicographic order on normalized calendar fields, which agrees
with absolute-time order on the normalized values produced by timeDate. -/
structure Instant where
  year : Int
  month : Int
  day : Int
  hour : Int
  minute : Int
  second : Int
deriving DecidableEq

/-- Embeds the transactions table row (model/transaction.go, struct Transaction). -/
structure Transaction where
  id : Nat
  userID : String
  ttype : String
  amount : Int
  categoryID : Nat
  createdAt : Instant
deriving DecidableEq

/-- Embeds model.Summary (model/transaction.go).  The Go map CategoryTotals is
modelled as an association list with unique keys. -/
structure Summary where
  IncomeTotal : Int
  ExpenseTotal : Int
  CategoryTotals : List (String × Int)
deriving DecidableEq

/-- The persistent store: both tables, the SERIAL counters, the wall clock used
for time.Now(), an injected failure schedule (one entry consumed per database
round trip; an empty schedule means every call succeeds), and a counter of
database calls made (used to state that a code path performs no store
operation). -/
structure DB where
  categories : List Category
  transactions : List Transaction
  nextCatId : Nat
  nextTxId : Nat
  now : Instant
  failures : List Bool
  calls : Nat
deriving DecidableEq

/-- One database round trip: consume the head of the failure schedule (false,
meaning success, when exhausted) and count the call. -/
def dbStep (db : DB) : Bool × DB :=
  (db.failures.headD false,
   { db with failures := db.failures.tail, calls := db.calls + 1 })

/-- Strict lexicographic order on calendar fields, the order used by the SQL
comparisons on created_at timestamps. -/
def instLt (a b : Instant) : Bool :=
  decide (a.year < b.year) ||
    (a.year == b.year &&
      (decide (a.month < b.month) ||
        (a.month == b.month &&
          (decide (a.day < b.day) ||
            (a.day == b.day &&
              (decide (a.hour < b.hour) ||
                (a.hour == b.hour &&
                  (decide (a.minute < b.minute) ||
                    (a.minute == b.minute && decide (a.second < b.second))))))))))

/-- Non-strict companion of instLt. -/
def instLe (a b : Instant) : Bool :=
  instLt a b || a == b

/-- Embeds time.Date(year, month, day, hour, min, sec, 0, time.UTC) for the
call sites of this program, which always pass day 1 and in-range clock fields;
the month is normalized into the range 1..12 with the year adjusted, exactly as
Go norm does. -/
def timeDate (year month day hour minute second : Int) : Instant :=
  let m := month - 1
  { year := year + m.ediv 12, month := m.emod 12 + 1,
    day := day, hour := hour, minute := minute, second := second }

/-- Embeds t.AddDate(0, 1, 0): Go re-runs Date with month+1 and normalizes. -/
def addOneMonth (t : Instant) : Instant :=
  timeDate t.year (t.month + 1) t.day t.hour t.minute t.second

/-- Embeds strconv.Atoi: an optional single sign followed by one or more
decimal digits, rejected when empty, malformed, or outside the 64-bit int
range (Go returns ErrSyntax or ErrRange, which the handlers treat alike). -/
def goAtoi (s : String) : Option Int :=
  let chars := s.data
  let signed : Int × List Char :=
    match chars with
    | '+' :: rest => (1, rest)
    | '-' :: rest => (-1, rest)
    | _ => (1, chars)
  let sign := signed.1
  let digits := signed.2
  if digits.isEmpty then none
  else if digits.all (fun c => c.isDigit) then
    let n : Nat := digits.foldl (fun acc c => acc * 10 + (c.toNat - 48)) 0
    let v : Int := sign * (n : Int)
    if v < -(2 ^ 63 : Int) || (2 ^ 63 : Int) ≤ v then none else some v
  else none

/-- Embeds strings.TrimSuffix: drop the suffix when the string ends with it,
otherwise return the string unchanged. -/
def trimSuffix (s suffix : String) : String :=
  let n := s.data.length
  let m := suffix.data.length
  if decide (m ≤ n) && s.data.drop (n - m) == suffix.data then
    String.mk (s.data.take (n - m))
  else s

/-- Scanner for strings.Fields: acc holds the characters of the current field
in reverse; a whitespace character ends the current field (if any), and any
other character extends it. -/
def fieldsAux (acc : List Char) : List Char → List String
  | [] => if acc.isEmpty then [] else [String.mk acc.reverse]
  | c :: cs =>
    if c.isWhitespace then
      if acc.isEmpty then fieldsAux [] cs
      else String.mk acc.reverse :: fieldsAux [] cs
    else fieldsAux (c :: acc) cs

/-- Embeds strings.Fields: the maximal runs of non-whitespace characters, so
that empty input or all-whitespace input yields the empty list. -/
def fields (text : String) : List String :=
  fieldsAux [] text.data

/-- Go map assignment m[k] = v on a map modelled as an association list: the
binding for k is replaced.  Go maps are unordered, so the position of the new
binding carries no meaning. -/
def mapSet {β : Type} (m : List (String × β)) (k : String) (v : β) :
    List (String × β) :=
  (k, v) :: m.filter (fun p => !(p.1 == k))

/-- Embeds model.CheckCategoryExists (model/category.go): SELECT EXISTS over
categories with user_id, name AND type all matching. -/
def CheckCategoryExists (db : DB) (userID name typeName : String) :
    Except Unit Bool × DB :=
  let step := dbStep db
  let db := step.2
  if step.1 then (Except.error (), db)
  else
    (Except.ok (db.categories.any
      (fun c => c.userID == userID && c.name == name && c.ctype == typeName)), db)

/-- Embeds model.AddCategory (model/category.go): INSERT INTO categories.  The
table has UNIQUE(user_id, name) (db/db.go createTables), so the insert errors
when the pair already exists. -/
def AddCategory (db : DB) (userID name typeName : String) :
    Except Unit Unit × DB :=
  let step := dbStep db
  let db := step.2
  if step.1 then (Except.error (), db)
  else if db.categories.any (fun c => c.userID == userID && c.name == name) then
    (Except.error (), db)
  else
    (Except.ok (),
     { db with
       categories := db.categories ++
         [{ id := db.nextCatId, userID := userID, name := name, ctype := typeName }],
       nextCatId := db.nextCatId + 1 })

/-- The row effect of UPDATE categories SET name = newName WHERE user_id =
userID AND name = oldName on one row: only the name field of a matched row
changes. -/
def renameCat (userID oldName newName : String) (c : Category) : Category :=
  if c.userID == userID && c.name == oldName then { c with name := newName }
  else c

/-- Embeds model.UpdateCategory (model/category.go): UPDATE categories SET
name.  The UNIQUE(user_id, name) constraint makes the update fail when it
would rename a row onto an existing distinct name; otherwise the matched rows
are renamed and rows affected decides the boolean result. -/
def UpdateCategory (db : DB) (userID oldName newName : String) :
    Except Unit Bool × DB :=
  let step := dbStep db
  let db := step.2
  if step.1 then (Except.error (), db)
  else
    let affected :=
      (db.categories.filter (fun c => c.userID == userID && c.name == oldName)).length
    if decide (affected ≠ 0) && !(newName == oldName) &&
        db.categories.any (fun c => c.userID == userID && c.name == newName) then
      (Except.error (), db)
    else
      let db := { db with
        categories := db.categories.map (renameCat userID oldName newName) }
      if affected == 0 then (Except.ok false, db) else (Except.ok true, db)

/-- Embeds model.DeleteCategory (model/category.go): DELETE FROM categories;
the foreign key ON DELETE CASCADE (db/db.go) also removes transactions that
reference a deleted category id. -/
def DeleteCategory (db : DB) (userID name : String) : Except Unit Bool × DB :=
  let step := dbStep db
  let db := step.2
  if step.1 then (Except.error (), db)
  else
    let matched := db.categories.filter (fun c => c.userID == userID && c.name == name)
    let db := { db with
      categories := db.categories.filter
        (fun c => !(c.userID == userID && c.name == name)),
      transactions := db.transactions.filter
        (fun t => !(matched.any (fun c => c.id == t.categoryID))) }
    if matched.length == 0 then (Except.ok false, db) else (Except.ok true, db)

/-- Embeds model.GetCategoriesByType (model/category.go): SELECT type, name
ORDER BY type, name, then the Go loop appending each name under its type key. -/
def GetCategoriesByType (db : DB) (userID : String) :
    Except Unit (List (String × List String)) × DB :=
  let step := dbStep db
  let db := step.2
  if step.1 then (Except.error (), db)
  else
    let rows := ((db.categories.filter (fun c => c.userID == userID)).map
      (fun c => (c.ctype, c.name))).mergeSort
        (fun a b => a.1 < b.1 || (a.1 == b.1 && a.2 ≤ b.2))
    (Except.ok (rows.foldl
      (fun m row => mapSet m row.1 (((List.lookup row.1 m).getD []) ++ [row.2]))
      []), db)

/-- Embeds model.GetCategoryIdAndType (model/category.go): QueryRow over
categories matching user_id and name; no row yields sql.ErrNoRows, merged here
with a database failure since the handler treats every error alike. -/
def GetCategoryIdAndType (db : DB) (userID name : String) :
    Except Unit (Nat × String) × DB :=
  let step := dbStep db
  let db := step.2
  if step.1 then (Except.error (), db)
  else
    match db.categories.filter (fun c => c.userID == userID && c.name == name) with
    | [] => (Except.error (), db)
    | c :: _ => (Except.ok (c.id, c.ctype), db)

/-- Embeds model.GetCategoriesInfo (model/category.go): SELECT name, type for
the user, folded into a name-to-type map. -/
def GetCategoriesInfo (db : DB) (userID : String) :
    Except Unit (List (String × String)) × DB :=
  let step := dbStep db
  let db := step.2
  if step.1 then (Except.error (), db)
  else
    (Except.ok ((db.categories.filter (fun c => c.userID == userID)).foldl
      (fun m c => mapSet m c.name c.ctype) []), db)

/-- Key of a monthly-summary row: (transaction type, category name), the GROUP
BY key of GetMonthlySummary. -/
def rowKey (r : String × String × Int) : String × String :=
  (r.1, r.2.1)

/-- Amount of a monthly-summary row. -/
def rowAmt (r : String × String × Int) : Int :=
  r.2.2

/-- The WHERE clause of GetMonthlySummary on a transaction: the user matches
and created_at lies in the half-open window from start (inclusive) to endT
(exclusive). -/
def inWindow (userID : String) (start endT : Instant) (t : Transaction) : Bool :=
  t.userID == userID && instLe start t.createdAt && instLt t.createdAt endT

/-- The FROM/JOIN/WHERE part of the GetMonthlySummary query: transactions of
the user inside the window joined to categories on category_id = id, one row
(type, name, amount) per matching pair. -/
def joinRows (db : DB) (userID : String) (start endT : Instant) :
    List (String × String × Int) :=
  (db.transactions.filter (inWindow userID start endT)).flatMap
    (fun t => (db.categories.filter (fun c => c.id == t.categoryID)).map
      (fun c => (t.ttype, c.name, t.amount)))

/-- The GROUP BY t.type, c.name with SUM(t.amount): one row per distinct key
carrying the sum of the amounts of its fiber.  SQL leaves the output order
unspecified; this model uses the order produced by dedup of the key list. -/
def groupRows (rows : List (String × String × Int)) :
    List (String × String × Int) :=
  ((rows.map rowKey).dedup).map
    (fun k => (k.1, k.2,
      ((rows.filter (fun r => rowKey r == k)).map rowAmt).sum))

/-- The Go row loop of GetMonthlySummary applied to one queried row: store the
category total (overwriting on a repeated name) and add the group sum to
IncomeTotal when the type label is the income label, otherwise to
ExpenseTotal. -/
def applyRow (s : Summary) (r : String × String × Int) : Summary :=
  let s := { s with CategoryTotals := mapSet s.CategoryTotals r.2.1 r.2.2 }
  if r.1 == "收入" then { s with IncomeTotal := s.IncomeTotal + r.2.2 }
  else { s with ExpenseTotal := s.ExpenseTotal + r.2.2 }

/-- Embeds model.GetMonthlySummary (model/transaction.go): window computation
with time.Date and AddDate(0,1,0), the grouped query, and the row loop. -/
def GetMonthlySummary (db : DB) (userID : String) (month : Instant) :
    Except Unit Summary × DB :=
  let step := dbStep db
  let db := step.2
  if step.1 then (Except.error (), db)
  else
    let start := timeDate month.year month.month 1 0 0 0
    let endT := addOneMonth start
    let rows := groupRows (joinRows db userID start endT)
    (Except.ok (rows.foldl applyRow
      { IncomeTotal := 0, ExpenseTotal := 0, CategoryTotals := [] }), db)

/-- Embeds model.AddTransaction (model/transaction.go): INSERT INTO
transactions with created_at = time.Now().  The category_id foreign key
(db/db.go) makes the insert fail when the referenced category is absent.  The
returned record carries id 0 because result.LastInsertId always errors under
the lib/pq driver, which the Go code only logs as a warning. -/
def AddTransaction (db : DB) (userID : String) (categoryID : Nat)
    (transType : String) (amount : Int) : Except Unit Transaction × DB :=
  let step := dbStep db
  let db := step.2
  if step.1 then (Except.error (), db)
  else if !(db.categories.any (fun c => c.id == categoryID)) then
    (Except.error (), db)
  else
    (Except.ok { id := 0, userID := userID, ttype := transType, amount := amount,
                 categoryID := categoryID, createdAt := db.now },
     { db with
       transactions := db.transactions ++
         [{ id := db.nextTxId, userID := userID, ttype := transType,
            amount := amount, categoryID := categoryID, createdAt := db.now }],
       nextTxId := db.nextTxId + 1 })

/-- The row effect of UPDATE transactions SET amount WHERE id on one row:
only the amount field of the matched row changes. -/
def setTxAmount (id : Nat) (amount : Int) (t : Transaction) : Transaction :=
  if t.id == id then { t with amount := amount } else t

/-- Embeds model.UpdateTransaction (model/transaction.go): UPDATE transactions
SET amount WHERE id.  Zero rows affected is only logged; the function still
returns nil. -/
def UpdateTransaction (db : DB) (id : Nat) (amount : Int) :
    Except Unit Unit × DB :=
  let step := dbStep db
  let db := step.2
  if step.1 then (Except.error (), db)
  else
    (Except.ok (),
     { db with transactions := db.transactions.map (setTxAmount id amount) })

/-- Embeds model.DeleteTransaction (model/transaction.go): DELETE FROM
transactions WHERE id.  Zero rows affected is only logged; the function still
returns nil. -/
def DeleteTransaction (db : DB) (id : Nat) : Except Unit Unit × DB :=
  let step := dbStep db
  let db := step.2
  if step.1 then (Except.error (), db)
  else
    (Except.ok (),
     { db with
       transactions := db.transactions.filter (fun t => !(t.id == id)) })

/-- The join predicate of FindTransactionID on a transaction: owned by the
user and linked (by category_id = id) to some category named categoryName.
Note the SQL does not restrict the joined category to the same user. -/
def txJoins (db : DB) (userID categoryName : String) (t : Transaction) : Bool :=
  t.userID == userID &&
    db.categories.any (fun c => c.id == t.categoryID && c.name == categoryName)

/-- Embeds model.FindTransactionID (model/transaction.go): SELECT t.id over
the join filtered by user, category name and exact amount, LIMIT 1.  The row
order is unspecified in SQL; this model returns the first match in table
order.  No row yields sql.ErrNoRows, merged with a database failure since the
handler treats every error alike. -/
def FindTransactionID (db : DB) (userID categoryName : String) (amount : Int) :
    Except Unit Nat × DB :=
  let step := dbStep db
  let db := step.2
  if step.1 then (Except.error (), db)
  else
    match db.transactions.filter
        (fun t => txJoins db userID categoryName t && t.amount == amount) with
    | [] => (Except.error (), db)
    | t :: _ => (Except.ok t.id, db)

/-- Token access tokens[i]; guards in the dispatcher ensure the index is in
range wherever the result is used. -/
def tokenAt (tokens : List String) (i : Nat) : String :=
  tokens.getD i ("")

/-- Embeds handleAddCategory (handler/handler.go): check existence of
(user, name, type), report a duplicate, otherwise insert. -/
def handleAddCategory (db : DB) (userID typeName name : String) : String × DB :=
  match CheckCategoryExists db userID name typeName with
  | (Except.error _, db) => ("❌ 類別檢查失敗，請稍後再試。", db)
  | (Except.ok true, db) => ("❌ 類別 " ++ name ++ " 已存在，請使用其他名稱。", db)
  | (Except.ok false, db) =>
    match AddCategory db userID name typeName with
    | (Except.error _, db) => ("❌ 新增類別失敗，請稍後再試。", db)
    | (Except.ok _, db) => ("✅ 類別 " ++ name ++ " 已新增！", db)

/-- Embeds handleUpdateCategory (handler/handler.go). -/
def handleUpdateCategory (db : DB) (userID oldName newName : String) :
    String × DB :=
  match UpdateCategory db userID oldName newName with
  | (Except.error _, db) => ("❌ 修改失敗，請稍後再試。", db)
  | (Except.ok false, db) => ("❌ 類別不存在。", db)
  | (Except.ok true, db) => ("✏️ 類別已修改為：" ++ newName, db)

/-- Embeds handleDeleteCategory (handler/handler.go). -/
def handleDeleteCategory (db : DB) (userID name : String) : String × DB :=
  match DeleteCategory db userID name with
  | (Except.error _, db) => ("❌ 刪除失敗，請稍後再試。", db)
  | (Except.ok false, db) => ("❌ 類別不存在。", db)
  | (Except.ok true, db) => ("🗑️ 類別 " ++ name ++ " 已刪除", db)

/-- The loop body of handleListCategories rendering one name per line. -/
def renderNames (names : List String) : String :=
  names.foldl (fun acc name => acc ++ "・" ++ name ++ "\n") ("")

/-- Embeds handleListCategories (handler/handler.go): fetch the grouped
categories, report when both groups are empty, otherwise build the two-section
report. -/
def handleListCategories (db : DB) (userID : String) : String × DB :=
  match GetCategoriesByType db userID with
  | (Except.error _, db) => ("❌ 類別查詢失敗，請稍後再試。", db)
  | (Except.ok categoriesByType, db) =>
    let incomeList := (List.lookup ("收入") categoriesByType).getD []
    let expenseList := (List.lookup ("支出") categoriesByType).getD []
    if incomeList.length = 0 ∧ expenseList.length = 0 then
      ("⚠️ 你尚未新增任何類別。", db)
    else
      let response := "📂 你的可用類別：\n"
      let response := if incomeList.length > 0 then
        response ++ "💰 收入類別：\n" ++ renderNames incomeList else response
      let response := if expenseList.length > 0 then
        response ++ "💸 支出類別：\n" ++ renderNames expenseList else response
      (response, db)

/-- Embeds handleQuickTransaction (handler/handler.go): parse the amount, look
the category up, insert the transaction. -/
def handleQuickTransaction (db : DB) (userID categoryName amountStr : String) :
    String × DB :=
  match goAtoi amountStr with
  | none => ("金額格式錯誤", db)
  | some amount =>
    match GetCategoryIdAndType db userID categoryName with
    | (Except.error _, db) => ("❌ 類別不存在，請先新增。", db)
    | (Except.ok idAndType, db) =>
      let categoryID := idAndType.1
      let categoryType := idAndType.2
      match AddTransaction db userID categoryID categoryType amount with
      | (Except.error _, db) => ("記錄失敗，請稍後再試。", db)
      | (Except.ok _, db) =>
        ("✅ " ++ categoryType ++ " $" ++ toString amount ++ " 類別：" ++
          categoryName ++ " 已記錄！", db)

/-- Embeds handleUpdateTransaction (handler/handler.go): parse both amounts,
find the record by (user, category name, old amount), update its amount. -/
def handleUpdateTransaction (db : DB)
    (userID category oldAmountStr newAmountStr : String) : String × DB :=
  match goAtoi oldAmountStr, goAtoi newAmountStr with
  | some oldAmount, some newAmount =>
    match FindTransactionID db userID category oldAmount with
    | (Except.error _, db) => ("❌ 找不到符合條件的紀錄。", db)
    | (Except.ok transactionID, db) =>
      match UpdateTransaction db transactionID newAmount with
      | (Except.error _, db) => ("❌ 修改失敗，請稍後再試。", db)
      | (Except.ok _, db) =>
        ("✅ 已將 " ++ category ++ " 的金額從 $" ++ toString oldAmount ++
          " 修改為 $" ++ toString newAmount ++ "。", db)
  | _, _ => ("金額格式錯誤，請輸入數字。", db)

/-- Embeds handleDeleteTransaction (handler/handler.go). -/
def handleDeleteTransaction (db : DB) (userID category amountStr : String) :
    String × DB :=
  match goAtoi amountStr with
  | none => ("金額格式錯誤，請輸入數字。", db)
  | some amount =>
    match FindTransactionID db userID category amount with
    | (Except.error _, db) => ("❌ 找不到符合條件的紀錄。", db)
    | (Except.ok transactionID, db) =>
      match DeleteTransaction db transactionID with
      | (Except.error _, db) => ("❌ 刪除失敗，請稍後再試。", db)
      | (Except.ok _, db) =>
        ("🗑️ 已刪除 " ++ category ++ " $" ++ toString amount ++ " 的紀錄。", db)

/-- The grouping loop of handleMonthlySummary (handler/handler.go lines
358-375): each category total goes to the income map when its type resolves to
the income label, to the expense map when it resolves to anything else, and
when the type cannot be resolved the amount sign decides (positive means
income, otherwise expense). -/
def partitionStep (categoriesInfo : List (String × String))
    (acc : List (String × Int) × List (String × Int)) (p : String × Int) :
    List (String × Int) × List (String × Int) :=
  match List.lookup p.1 categoriesInfo with
  | some catType =>
    if catType == "收入" then (mapSet acc.1 p.1 p.2, acc.2)
    else (acc.1, mapSet acc.2 p.1 p.2)
  | none =>
    if p.2 > 0 then (mapSet acc.1 p.1 p.2, acc.2)
    else (acc.1, mapSet acc.2 p.1 p.2)

def partitionCats (categoriesInfo : List (String × String))
    (totals : List (String × Int)) :
    List (String × Int) × List (String × Int) :=
  totals.foldl (partitionStep categoriesInfo) ([], [])

/-- The loop rendering one detail line per category. -/
def renderCats (cats : List (String × Int)) : String :=
  cats.foldl (fun acc p => acc ++ "・" ++ p.1 ++ "：$" ++ toString p.2 ++ "\n") ("")

/-- The part of handleMonthlySummary after targetMonth is known: fetch the
summary, build the header, partition the category totals with the current
category-type map (empty when GetCategoriesInfo fails, which the Go code only
logs), and append the detail sections and the net total.  The Go code appends
each section to result only when non-empty; appending the empty string
otherwise is the same string. -/
def renderSummary (db : DB) (userID : String) (targetMonth : Instant) :
    String × DB :=
  match GetMonthlySummary db userID targetMonth with
  | (Except.error _, db) => ("取得報表失敗，請稍後再試。", db)
  | (Except.ok summary, db) =>
    let header := "📊 " ++ toString targetMonth.year ++ "年" ++
      toString targetMonth.month ++ "月" ++ "\n收入：$" ++
      toString summary.IncomeTotal ++ "\n支出：$" ++
      toString summary.ExpenseTotal ++ "\n\n"
    let infoAndDb :=
      match GetCategoriesInfo db userID with
      | (Except.error _, db) => (([] : List (String × String)), db)
      | (Except.ok categoriesInfo, db) => (categoriesInfo, db)
    let categoriesInfo := infoAndDb.1
    let db := infoAndDb.2
    let parts := partitionCats categoriesInfo summary.CategoryTotals
    let incomeSection := if parts.1.length > 0 then
      "💰 收入明細：\n" ++ renderCats parts.1 ++ "\n" else ""
    let expenseSection := if parts.2.length > 0 then
      "💸 支出明細：\n" ++ renderCats parts.2 ++ "\n" else ""
    (header ++ incomeSection ++ expenseSection ++
      ("💰 淨收益：$" ++ toString (summary.IncomeTotal - summary.ExpenseTotal)), db)

/-- Embeds handleMonthlySummary (handler/handler.go): with exactly three
tokens, strip the year and month suffixes, parse both integers and validate
the month range, building targetMonth from time.Date; otherwise default to the
current clock.  A parse failure or out-of-range month returns the format-error
reply before any store access. -/
def handleMonthlySummary (db : DB) (userID : String) (tokens : List String) :
    String × DB :=
  if tokens.length = 3 then
    let yearStr := trimSuffix (tokenAt tokens 1) ("年")
    let monthStr := trimSuffix (tokenAt tokens 2) ("月")
    match goAtoi yearStr, goAtoi monthStr with
    | some year, some month =>
      if month < 1 ∨ month > 12 then
        ("⚠️ 結算格式錯誤，請使用：結算 或 結算 2025年 5月", db)
      else renderSummary db userID (timeDate year month 1 0 0 0)
    | _, _ => ("⚠️ 結算格式錯誤，請使用：結算 或 結算 2025年 5月", db)
  else
    renderSummary db userID db.now

/-- Embeds getHelpText (handler/handler.go): a fixed reply, no store access. -/
def getHelpText : String :=
  "📖 指令大全：\n\n📂 類別管理\n- 新增類別 支出/收入 類別名稱\n- 修改類別 舊名稱 新名稱\n- 刪除類別 名稱\n- 已設定類別（查看目前所有可用類別）\n\n📝 記帳與查詢\n- 類別名稱 金額（快速記帳）\n- 修改 類別名稱 原金額 新金額\n- 刪除 類別名稱 金額\n\n📊 月結報表\n- 結算 2025年 5月 (指定年月)"

/-- The nine intents of the dispatcher plus the empty-input and unrecognized
outcomes. -/
inductive Intent where
  | emptyInput
  | addCategory (typeName name : String)
  | updateCategory (oldName newName : String)
  | deleteCategory (name : String)
  | listCategories
  | quickTransaction (categoryName amountStr : String)
  | updateTransaction (category oldAmountStr newAmountStr : String)
  | deleteTransaction (category amountStr : String)
  | monthlySummary (tokens : List String)
  | helpText
  | unrecognized
deriving DecidableEq

/-- The switch of HandleMessage (handler/handler.go lines 36-70) as a
first-match classification over the token list, in source order. -/
def classify (tokens : List String) : Intent :=
  if tokens.length = 0 then Intent.emptyInput
  else if tokenAt tokens 0 = "新增類別" ∧ 3 ≤ tokens.length then
    Intent.addCategory (tokenAt tokens 1) (tokenAt tokens 2)
  else if tokenAt tokens 0 = "修改類別" ∧ tokens.length = 3 then
    Intent.updateCategory (tokenAt tokens 1) (tokenAt tokens 2)
  else if tokenAt tokens 0 = "刪除類別" ∧ tokens.length = 2 then
    Intent.deleteCategory (tokenAt tokens 1)
  else if tokenAt tokens 0 = "已設定類別" then Intent.listCategories
  else if tokens.length = 2 then
    Intent.quickTransaction (tokenAt tokens 0) (tokenAt tokens 1)
  else if tokenAt tokens 0 = "修改" ∧ tokens.length = 4 then
    Intent.updateTransaction (tokenAt tokens 1) (tokenAt tokens 2) (tokenAt tokens 3)
  else if tokenAt tokens 0 = "刪除" ∧ tokens.length = 3 then
    Intent.deleteTransaction (tokenAt tokens 1) (tokenAt tokens 2)
  else if tokenAt tokens 0 = "結算" then Intent.monthlySummary tokens
  else if tokenAt tokens 0 = "指令大全" then Intent.helpText
  else Intent.unrecognized

/-- Embeds HandleMessage (handler/handler.go): tokenize, classify, dispatch to
the matching handler. -/
def HandleMessage (db : DB) (userID text : String) : String × DB :=
  match classify (fields text) with
  | Intent.emptyInput => ("請輸入有效的指令。", db)
  | Intent.addCategory typeName name => handleAddCategory db userID typeName name
  | Intent.updateCategory oldName newName =>
    handleUpdateCategory db userID oldName newName
  | Intent.deleteCategory name => handleDeleteCategory db userID name
  | Intent.listCategories => handleListCategories db userID
  | Intent.quickTransaction categoryName amountStr =>
    handleQuickTransaction db userID categoryName amountStr
  | Intent.updateTransaction category oldA newA =>
    handleUpdateTransaction db userID category oldA newA
  | Intent.deleteTransaction category amountStr =>
    handleDeleteTransaction db userID category amountStr
  | Intent.monthlySummary tokens => handleMonthlySummary db userID tokens
  | Intent.helpText => (getHelpText, db)
  | Intent.unrecognized => ("❓ 指令不正確，請重新輸入。", db)

/-- An empty store with no injected failures, used for concrete scenarios. -/
def emptyDB : DB :=
  { categories := [], transactions := [], nextCatId := 1, nextTxId := 1,
    now := { year := 2025, month := 5, day := 10,
             hour := 0, minute := 0, second := 0 },
    failures := [], calls := 0 }

/-- The store after adding the income category 獎金 for user u, used as a
concrete starting state. -/
def bonusDB : DB :=
  { categories := [{ id := 1, userID := "u", name := "獎金", ctype := "收入" }],
    transactions := [], nextCatId := 2, nextTxId := 1,
    now := { year := 2025, month := 5, day := 10,
             hour := 0, minute := 0, second := 0 },
    failures := [], calls := 0 }

/-- A store with one expense category 午餐 for user u and a single recorded
transaction of 150 under it, used as a concrete starting state. -/
def lunchDB : DB :=
  { categories := [{ id := 1, userID := "u", name := "午餐", ctype := "支出" }],
    transactions := [{ id := 1, userID := "u", ttype := "支出", amount := 150,
                       categoryID := 1,
                       createdAt := { year := 2025, month := 5, day := 10,
                                      hour := 0, minute := 0, second := 0 } }],
    nextCatId := 2, nextTxId := 2,
    now := { year := 2025, month := 5, day := 10,
             hour := 0, minute := 0, second := 0 },
    failures := [], calls := 0 }

theorem string_append_ne_empty (a b : String) (h : a ≠ "") : (a ++ b) ≠ "" := by
  intro hc
  apply h
  cases a with
  | mk d =>
    cases b with
    | mk e =>
      simp [String.ext_iff] at hc ⊢
      exact hc.1

theorem CheckCategoryExists_ok (db : DB) (userID name typeName : String)
    (h : db.failures = []) :
    CheckCategoryExists db userID name typeName =
      (Except.ok (db.categories.any
        (fun c => c.userID == userID && c.name == name && c.ctype == typeName)),
       { db with failures := [], calls := db.calls + 1 }) := by
  simp [CheckCategoryExists, dbStep, h]

/-- C2: the dispatcher handles a two-token input as DeleteCategory exactly
when the first token is the delete-category keyword, and as QuickTransaction
whenever the first token is none of the four category-management keywords;
the add-category and update-category patterns can never match two tokens
because of their arity guards, so only the delete-category and
list-categories keywords are excluded. -/
theorem c2_two_token_dispatch (a b : String) :
    (a = "刪除類別" → classify [a, b] = Intent.deleteCategory b) ∧
    (a ≠ "新增類別" → a ≠ "修改類別" → a ≠ "刪除類別" → a ≠ "已設定類別" →
      classify [a, b] = Intent.quickTransaction a b) := by
  constructor
  · intro h
    subst h
    simp [classify, tokenAt]
  · intro h1 h2 h3 h4
    simp [classify, tokenAt, h1, h2, h3, h4]

theorem c2_two_token_dispatch_witness :
    classify [("刪除類別"), ("午餐")] = Intent.deleteCategory ("午餐") ∧
    classify [("午餐"), ("150")] = Intent.quickTransaction ("午餐") ("150") :=
  ⟨(c2_two_token_dispatch ("刪除類別") ("午餐")).1 rfl,
   (c2_two_token_dispatch ("午餐") ("150")).2
     (by decide) (by decide) (by decide) (by decide)⟩

/-- C3: a quick-transaction input whose amount token does not parse as an
integer is answered with the invalid-amount reply while the store is left
exactly as it was: no category lookup and no transaction insert happen (the
returned DB is unchanged, including its database-call counter). -/
theorem c3_invalid_amount_no_store_op (db : DB)
    (userID text categoryName amountStr : String)
    (hc : classify (fields text) = Intent.quickTransaction categoryName amountStr)
    (hp : goAtoi amountStr = none) :
    HandleMessage db userID text = ("金額格式錯誤", db) := by
  unfold HandleMessage
  rw [hc]
  show handleQuickTransaction db userID categoryName amountStr = _
  unfold handleQuickTransaction
  rw [hp]

theorem c3_invalid_amount_no_store_op_witness :
    classify (fields ("午餐 abc")) = Intent.quickTransaction ("午餐") ("abc") ∧
    goAtoi ("abc") = none ∧
    HandleMessage emptyDB ("u") ("午餐 abc") = ("金額格式錯誤", emptyDB) := by
  refine ⟨by decide, by decide, ?_⟩
  exact c3_invalid_amount_no_store_op emptyDB ("u") ("午餐 abc") ("午餐") ("abc")
    (by decide) (by decide)

/-- C1 counterexample: after AddCategory(u, 收入, 獎金) succeeds, a second
AddCategory for the same (user, name) with a DIFFERENT type does NOT return
the already-exists reply: the existence check filters on the type as well, so
it misses, the insert then violates UNIQUE(user_id, name), and the generic
add-failure reply is returned (nothing is persisted). -/
theorem c1_counterexample :
    (handleAddCategory emptyDB ("u") ("收入") ("獎金")).1 = "✅ 類別 獎金 已新增！" ∧
    (handleAddCategory
      (handleAddCategory emptyDB ("u") ("收入") ("獎金")).2 ("u") ("支出") ("獎金")).1 =
      "❌ 新增類別失敗，請稍後再試。" ∧
    (handleAddCategory
      (handleAddCategory emptyDB ("u") ("收入") ("獎金")).2 ("u") ("支出") ("獎金")).1 ≠
      "❌ 類別 獎金 已存在，請使用其他名稱。" ∧
    (handleAddCategory
      (handleAddCategory emptyDB ("u") ("收入") ("獎金")).2 ("u") ("支出") ("獎金")).2.categories =
      (handleAddCategory emptyDB ("u") ("收入") ("獎金")).2.categories := by
  refine ⟨rfl, rfl, ?_, rfl⟩
  decide

/-- C1 amended: duplicate detection in AddCategory is keyed by (user, name,
type), not only (user, name).  A second AddCategory with the same (user,
name) and the SAME type hits the existence check and returns the
already-exists reply; with a DIFFERENT type the existence check misses and
the insert fails on the UNIQUE(user_id, name) constraint, returning the
generic add-failure reply.  In both cases nothing is persisted. -/
theorem c1_duplicate_detection_keyed_by_type :
    (∀ db userID typeName name, db.failures = [] →
      (∃ c ∈ db.categories,
        c.userID = userID ∧ c.name = name ∧ c.ctype = typeName) →
      (handleAddCategory db userID typeName name).1 =
        "❌ 類別 " ++ name ++ " 已存在，請使用其他名稱。" ∧
      (handleAddCategory db userID typeName name).2.categories = db.categories ∧
      (handleAddCategory db userID typeName name).2.transactions =
        db.transactions) ∧
    (∀ db userID typeName name, db.failures = [] →
      (∃ c ∈ db.categories, c.userID = userID ∧ c.name = name) →
      (∀ c ∈ db.categories,
        ¬(c.userID = userID ∧ c.name = name ∧ c.ctype = typeName)) →
      (handleAddCategory db userID typeName name).1 =
        "❌ 新增類別失敗，請稍後再試。" ∧
      (handleAddCategory db userID typeName name).2.categories = db.categories ∧
      (handleAddCategory db userID typeName name).2.transactions =
        db.transactions) := by
  constructor
  · intro db userID typeName name hnf hex
    have hany : db.categories.any
        (fun c => c.userID == userID && c.name == name && c.ctype == typeName) =
        true := by
      rw [List.any_eq_true]
      obtain ⟨c, hc, h1, h2, h3⟩ := hex
      exact ⟨c, hc, by simp [h1, h2, h3]⟩
    unfold handleAddCategory
    rw [CheckCategoryExists_ok db userID name typeName hnf, hany]
    exact ⟨rfl, rfl, rfl⟩
  · intro db userID typeName name hnf hex hnot
    have hany : db.categories.any
        (fun c => c.userID == userID && c.name == name && c.ctype == typeName) =
        false := by
      rw [List.any_eq_false]
      intro c hc
      simp only [Bool.and_eq_true, beq_iff_eq]
      intro hcontra
      exact hnot c hc ⟨hcontra.1.1, hcontra.1.2, hcontra.2⟩
    have huniq : db.categories.any
        (fun c => c.userID == userID && c.name == name) = true := by
      rw [List.any_eq_true]
      obtain ⟨c, hc, h1, h2⟩ := hex
      exact ⟨c, hc, by simp [h1, h2]⟩
    unfold handleAddCategory
    rw [CheckCategoryExists_ok db userID name typeName hnf, hany]
    unfold AddCategory
    simp [dbStep, huniq]

theorem c1_duplicate_detection_keyed_by_type_witness :
    ((handleAddCategory bonusDB ("u") ("收入") ("獎金")).1 =
        "❌ 類別 " ++ "獎金" ++ " 已存在，請使用其他名稱。" ∧
      (handleAddCategory bonusDB ("u") ("收入") ("獎金")).2.categories =
        bonusDB.categories ∧
      (handleAddCategory bonusDB ("u") ("收入") ("獎金")).2.transactions =
        bonusDB.transactions) ∧
    ((handleAddCategory bonusDB ("u") ("支出") ("獎金")).1 =
        "❌ 新增類別失敗，請稍後再試。" ∧
      (handleAddCategory bonusDB ("u") ("支出") ("獎金")).2.categories =
        bonusDB.categories ∧
      (handleAddCategory bonusDB ("u") ("支出") ("獎金")).2.transactions =
        bonusDB.transactions) :=
  ⟨c1_duplicate_detection_keyed_by_type.1 bonusDB ("u") ("收入") ("獎金") rfl
      ⟨{ id := 1, userID := "u", name := "獎金", ctype := "收入" },
        by decide, rfl, rfl, rfl⟩,
   c1_duplicate_detection_keyed_by_type.2 bonusDB ("u") ("支出") ("獎金") rfl
      ⟨{ id := 1, userID := "u", name := "獎金", ctype := "收入" },
        by decide, rfl, rfl⟩
      (by decide)⟩

theorem UpdateCategory_result (db : DB) (u old new : String)
    (hnf : db.failures = []) :
    UpdateCategory db u old new =
      (if decide
            ((db.categories.filter
              (fun c => c.userID == u && c.name == old)).length ≠ 0) &&
          !(new == old) &&
          db.categories.any (fun c => c.userID == u && c.name == new) then
        (Except.error (), { db with failures := [], calls := db.calls + 1 })
      else if (db.categories.filter
          (fun c => c.userID == u && c.name == old)).length == 0 then
        (Except.ok false,
         { db with
           categories := db.categories.map (renameCat u old new),
           failures := [], calls := db.calls + 1 })
      else
        (Except.ok true,
         { db with
           categories := db.categories.map (renameCat u old new),
           failures := [], calls := db.calls + 1 })) := by
  simp only [UpdateCategory, dbStep, hnf, List.headD_nil, List.tail_nil]
  rfl

/-- C7: renaming a category changes only the name field: ids, types and
owners of all categories are preserved, rows not matching (user, oldName)
keep their name, the transactions table (and with it the frozen type of every
recorded transaction) is untouched, and on success the reply carries the new
name. -/
theorem c7_rename_changes_only_name (db : DB) (userID oldName newName : String)
    (hnf : db.failures = []) :
    (handleUpdateCategory db userID oldName newName).2.transactions =
      db.transactions ∧
    List.Forall₂ (fun c c' : Category =>
        c'.id = c.id ∧ c'.userID = c.userID ∧ c'.ctype = c.ctype ∧
        (c'.name = c.name ∨ (c.name = oldName ∧ c'.name = newName)))
      db.categories (handleUpdateCategory db userID oldName newName).2.categories ∧
    ((∃ c ∈ db.categories, c.userID = userID ∧ c.name = oldName) →
      (newName = oldName ∨
        ∀ c ∈ db.categories, ¬(c.userID = userID ∧ c.name = newName)) →
      (handleUpdateCategory db userID oldName newName).1 =
        "✏️ 類別已修改為：" ++ newName) := by
  have hmapfa : List.Forall₂ (fun c c' : Category =>
      c'.id = c.id ∧ c'.userID = c.userID ∧ c'.ctype = c.ctype ∧
      (c'.name = c.name ∨ (c.name = oldName ∧ c'.name = newName)))
      db.categories (db.categories.map (renameCat userID oldName newName)) := by
    rw [List.forall₂_map_right_iff]
    rw [List.forall₂_same]
    intro c _
    unfold renameCat
    by_cases hc : (c.userID == userID && c.name == oldName) = true
    · rw [if_pos hc]
      simp only [Bool.and_eq_true, beq_iff_eq] at hc
      exact ⟨rfl, rfl, rfl, Or.inr ⟨hc.2, rfl⟩⟩
    · rw [if_neg hc]
      exact ⟨rfl, rfl, rfl, Or.inl rfl⟩
  unfold handleUpdateCategory
  rw [UpdateCategory_result db userID oldName newName hnf]
  by_cases hviol : (decide
        ((db.categories.filter
          (fun c => c.userID == userID && c.name == oldName)).length ≠ 0) &&
      !(newName == oldName) &&
      db.categories.any (fun c => c.userID == userID && c.name == newName)) =
      true
  · rw [if_pos hviol]
    refine ⟨rfl, ?_, ?_⟩
    · rw [List.forall₂_same]
      intro c _
      exact ⟨rfl, rfl, rfl, Or.inl rfl⟩
    · intro _ hnoc
      exfalso
      simp only [Bool.and_eq_true, Bool.not_eq_eq_eq_not, Bool.not_true,
        beq_eq_false_iff_ne, ne_eq, decide_eq_true_eq, List.any_eq_true] at hviol
      obtain ⟨⟨_, hne⟩, c, hc, hcm⟩ := hviol
      simp only [Bool.and_eq_true, beq_iff_eq] at hcm
      rcases hnoc with h | h
      · exact hne h
      · exact h c hc ⟨hcm.1, hcm.2⟩
  · rw [if_neg hviol]
    by_cases haff : ((db.categories.filter
        (fun c => c.userID == userID && c.name == oldName)).length == 0) = true
    · rw [if_pos haff]
      refine ⟨rfl, hmapfa, ?_⟩
      intro hex _
      exfalso
      simp only [beq_iff_eq, List.length_eq_zero] at haff
      obtain ⟨c, hc, h1, h2⟩ := hex
      have : c ∈ db.categories.filter
          (fun c => c.userID == userID && c.name == oldName) := by
        rw [List.mem_filter]
        exact ⟨hc, by simp [h1, h2]⟩
      rw [haff] at this
      exact List.not_mem_nil c this
    · rw [if_neg haff]
      exact ⟨rfl, hmapfa, fun _ _ => rfl⟩

theorem c7_rename_changes_only_name_witness :
    (handleUpdateCategory bonusDB ("u") ("獎金") ("紅利")).2.transactions =
      bonusDB.transactions ∧
    List.Forall₂ (fun c c' : Category =>
        c'.id = c.id ∧ c'.userID = c.userID ∧ c'.ctype = c.ctype ∧
        (c'.name = c.name ∨ (c.name = "獎金" ∧ c'.name = "紅利")))
      bonusDB.categories
      (handleUpdateCategory bonusDB ("u") ("獎金") ("紅利")).2.categories ∧
    ((∃ c ∈ bonusDB.categories, c.userID = "u" ∧ c.name = "獎金") →
      ("紅利" = "獎金" ∨
        ∀ c ∈ bonusDB.categories, ¬(c.userID = "u" ∧ c.name = "紅利")) →
      (handleUpdateCategory bonusDB ("u") ("獎金") ("紅利")).1 =
        "✏️ 類別已修改為：" ++ "紅利") :=
  c7_rename_changes_only_name bonusDB ("u") ("獎金") ("紅利") rfl

theorem UpdateTransaction_ok (db : DB) (id : Nat) (amount : Int)
    (h : db.failures = []) :
    UpdateTransaction db id amount =
      (Except.ok (),
       { db with
         transactions := db.transactions.map (setTxAmount id amount),
         failures := [], calls := db.calls + 1 }) := by
  simp only [UpdateTransaction, dbStep, h, List.headD_nil, List.tail_nil]
  rfl

theorem DeleteTransaction_ok (db : DB) (id : Nat) (h : db.failures = []) :
    DeleteTransaction db id =
      (Except.ok (),
       { db with
         transactions := db.transactions.filter (fun t => !(t.id == id)),
         failures := [], calls := db.calls + 1 }) := by
  simp only [DeleteTransaction, dbStep, h, List.headD_nil, List.tail_nil]
  rfl

theorem FindTransactionID_snd (db : DB) (u c : String) (a : Int) :
    (FindTransactionID db u c a).2 =
      { db with failures := db.failures.tail, calls := db.calls + 1 } := by
  unfold FindTransactionID dbStep
  dsimp only
  split
  · rfl
  · split <;> rfl

/-- C10: the store-layer UpdateTransaction and DeleteTransaction return
success even when no row has the given id (zero rows affected is only
logged), leaving the table unchanged; consequently handleUpdateTransaction
replies with the success confirmation whenever FindTransactionID succeeded,
with no check that the later update affected any row. -/
theorem c10_zero_rows_affected_still_success :
    (∀ db id amount, db.failures = [] →
      (∀ t ∈ db.transactions, t.id ≠ id) →
      (UpdateTransaction db id amount).1 = Except.ok () ∧
      (UpdateTransaction db id amount).2.transactions = db.transactions ∧
      (DeleteTransaction db id).1 = Except.ok () ∧
      (DeleteTransaction db id).2.transactions = db.transactions) ∧
    (∀ db userID category oldAmountStr newAmountStr oldAmount newAmount tid,
      db.failures = [] →
      goAtoi oldAmountStr = some oldAmount →
      goAtoi newAmountStr = some newAmount →
      (FindTransactionID db userID category oldAmount).1 = Except.ok tid →
      (handleUpdateTransaction db userID category oldAmountStr newAmountStr).1 =
        "✅ 已將 " ++ category ++ " 的金額從 $" ++ toString oldAmount ++
          " 修改為 $" ++ toString newAmount ++ "。") := by
  constructor
  · intro db id amount hnf hno
    rw [UpdateTransaction_ok db id amount hnf, DeleteTransaction_ok db id hnf]
    refine ⟨rfl, ?_, rfl, ?_⟩
    · show db.transactions.map _ = db.transactions
      have : ∀ t ∈ db.transactions, setTxAmount id amount t = t := by
        intro t ht
        unfold setTxAmount
        rw [if_neg]
        simp only [beq_iff_eq]
        exact hno t ht
      rw [List.map_congr_left this]
      exact List.map_id' db.transactions
    · show db.transactions.filter _ = db.transactions
      rw [List.filter_eq_self]
      intro t ht
      simp only [Bool.not_eq_true', beq_eq_false_iff_ne]
      exact hno t ht
  · intro db userID category oldAmountStr newAmountStr oldAmount newAmount tid
      hnf hold hnew hfind
    rcases hF : FindTransactionID db userID category oldAmount with ⟨res, db2⟩
    have hres : res = Except.ok tid := by
      rw [hF] at hfind
      exact hfind
    subst hres
    have hdb2 : db2.failures = [] := by
      have h2 := FindTransactionID_snd db userID category oldAmount
      rw [hF] at h2
      have h3 : db2 =
          { db with failures := db.failures.tail, calls := db.calls + 1 } := h2
      rw [h3, hnf]
      rfl
    unfold handleUpdateTransaction
    rw [hold, hnew]
    show (match FindTransactionID db userID category oldAmount with
      | (Except.error _, db) => ("❌ 找不到符合條件的紀錄。", db)
      | (Except.ok transactionID, db) =>
        match UpdateTransaction db transactionID newAmount with
        | (Except.error _, db) => ("❌ 修改失敗，請稍後再試。", db)
        | (Except.ok _, db) =>
          ("✅ 已將 " ++ category ++ " 的金額從 $" ++ toString oldAmount ++
            " 修改為 $" ++ toString newAmount ++ "。", db)).1 = _
    rw [hF]
    show (match UpdateTransaction db2 tid newAmount with
      | (Except.error _, db) => ("❌ 修改失敗，請稍後再試。", db)
      | (Except.ok _, db) =>
        ("✅ 已將 " ++ category ++ " 的金額從 $" ++ toString oldAmount ++
          " 修改為 $" ++ toString newAmount ++ "。", db)).1 = _
    rw [UpdateTransaction_ok db2 tid newAmount hdb2]

theorem c10_zero_rows_affected_still_success_witness :
    ((UpdateTransaction bonusDB 5 100).1 = Except.ok () ∧
      (UpdateTransaction bonusDB 5 100).2.transactions = bonusDB.transactions ∧
      (DeleteTransaction bonusDB 5).1 = Except.ok () ∧
      (DeleteTransaction bonusDB 5).2.transactions = bonusDB.transactions) ∧
    (handleUpdateTransaction lunchDB ("u") ("午餐") ("150") ("200")).1 =
      "✅ 已將 " ++ "午餐" ++ " 的金額從 $" ++ toString (150 : Int) ++
        " 修改為 $" ++ toString (200 : Int) ++ "。" :=
  ⟨c10_zero_rows_affected_still_success.1 bonusDB 5 100 rfl
      (by intro t ht; simp [bonusDB] at ht),
   c10_zero_rows_affected_still_success.2 lunchDB ("u") ("午餐") ("150") ("200")
      150 200 1 rfl (by decide) (by decide) rfl⟩

theorem filter_eq_singleton_elim {α : Type} {p : α → Bool} {l : List α} {a : α}
    (h : l.filter p = [a]) :
    ∃ l1 l2, l = l1 ++ a :: l2 ∧ (∀ x ∈ l1, p x = false) ∧
      (∀ x ∈ l2, p x = false) ∧ p a = true := by
  induction l with
  | nil => simp at h
  | cons x xs ih =>
    by_cases hx : p x = true
    · rw [List.filter_cons_of_pos hx] at h
      injection h with hxa htail
      subst hxa
      refine ⟨[], xs, rfl, by intro y hy; simp at hy, ?_, hx⟩
      intro y hy
      have hnil : xs.filter p = [] := htail
      rw [List.filter_eq_nil_iff] at hnil
      exact Bool.eq_false_iff.mpr (hnil y hy)
    · rw [List.filter_cons_of_neg hx] at h
      obtain ⟨l1, l2, hl, hf1, hf2, ha⟩ := ih h
      refine ⟨x :: l1, l2, by rw [hl, List.cons_append], ?_, hf2, ha⟩
      intro y hy
      rcases List.mem_cons.mp hy with hy | hy
      · subst hy
        exact Bool.eq_false_iff.mpr hx
      · exact hf1 y hy

theorem txJoins_setTxAmount (db : DB) (u c : String) (i : Nat) (a : Int)
    (t : Transaction) :
    txJoins db u c (setTxAmount i a t) = txJoins db u c t := by
  unfold setTxAmount
  by_cases h : (t.id == i) = true
  · rw [if_pos h]
    rfl
  · rw [if_neg h]

theorem FindTransactionID_found (db : DB) (u c : String) (a : Int)
    (t0 : Transaction) (hnf : db.failures = [])
    (hf : db.transactions.filter
      (fun t => txJoins db u c t && t.amount == a) = [t0]) :
    FindTransactionID db u c a =
      (Except.ok t0.id, { db with failures := [], calls := db.calls + 1 }) := by
  obtain ⟨cats, txs, nci, nti, nw, fl, cl⟩ := db
  have hfl : fl = [] := hnf
  subst hfl
  unfold FindTransactionID
  show (match txs.filter (fun t =>
        txJoins ⟨cats, txs, nci, nti, nw, [], cl⟩ u c t && t.amount == a) with
    | [] => (Except.error (), (⟨cats, txs, nci, nti, nw, [], cl + 1⟩ : DB))
    | t :: _ => (Except.ok t.id, (⟨cats, txs, nci, nti, nw, [], cl + 1⟩ : DB))) =
    _
  rw [hf]

theorem FindTransactionID_notfound (db : DB) (u c : String) (a : Int)
    (hnf : db.failures = [])
    (hf : db.transactions.filter
      (fun t => txJoins db u c t && t.amount == a) = []) :
    FindTransactionID db u c a =
      (Except.error (), { db with failures := [], calls := db.calls + 1 }) := by
  obtain ⟨cats, txs, nci, nti, nw, fl, cl⟩ := db
  have hfl : fl = [] := hnf
  subst hfl
  unfold FindTransactionID
  show (match txs.filter (fun t =>
        txJoins ⟨cats, txs, nci, nti, nw, [], cl⟩ u c t && t.amount == a) with
    | [] => (Except.error (), (⟨cats, txs, nci, nti, nw, [], cl + 1⟩ : DB))
    | t :: _ => (Except.ok t.id, (⟨cats, txs, nci, nti, nw, [], cl + 1⟩ : DB))) =
    _
  rw [hf]

/-- C9: from a state in which user u has exactly one transaction joining to
category name C (the join used by FindTransactionID) and its amount is 150,
the update command succeeds with the confirmation reply; afterwards a lookup
by amount 200 succeeds returning that transaction id, while a lookup by
amount 150 reports not-found. -/
theorem c9_update_amount_roundtrip (db : DB) (u C : String) (t0 : Transaction)
    (hnf : db.failures = [])
    (honly : db.transactions.filter (txJoins db u C) = [t0])
    (h150 : t0.amount = 150) :
    (handleUpdateTransaction db u C ("150") ("200")).1 =
      "✅ 已將 " ++ C ++ " 的金額從 $" ++ toString (150 : Int) ++
        " 修改為 $" ++ toString (200 : Int) ++ "。" ∧
    (FindTransactionID (handleUpdateTransaction db u C ("150") ("200")).2
        u C 200).1 = Except.ok t0.id ∧
    (FindTransactionID (handleUpdateTransaction db u C ("150") ("200")).2
        u C 150).1 = Except.error () := by
  obtain ⟨l1, l2, hl, hf1, hf2, ht0⟩ := filter_eq_singleton_elim honly
  have hA : db.transactions.filter
      (fun t => txJoins db u C t && t.amount == (150 : Int)) = [t0] := by
    rw [hl, List.filter_append]
    have e1 : l1.filter
        (fun t => txJoins db u C t && t.amount == (150 : Int)) = [] := by
      rw [List.filter_eq_nil_iff]
      intro x hx
      simp [hf1 x hx]
    have e2 : l2.filter
        (fun t => txJoins db u C t && t.amount == (150 : Int)) = [] := by
      rw [List.filter_eq_nil_iff]
      intro x hx
      simp [hf2 x hx]
    rw [e1, List.filter_cons_of_pos (by simp [ht0, h150]), e2]
    rfl
  have hFind : FindTransactionID db u C 150 =
      (Except.ok t0.id, { db with failures := [], calls := db.calls + 1 }) :=
    FindTransactionID_found db u C 150 t0 hnf hA
  have hH : handleUpdateTransaction db u C ("150") ("200") =
      ("✅ 已將 " ++ C ++ " 的金額從 $" ++ toString (150 : Int) ++
        " 修改為 $" ++ toString (200 : Int) ++ "。",
       { db with
         transactions := db.transactions.map (setTxAmount t0.id 200),
         failures := [], calls := db.calls + 1 + 1 }) := by
    unfold handleUpdateTransaction
    show (match FindTransactionID db u C 150 with
      | (Except.error _, db) => ("❌ 找不到符合條件的紀錄。", db)
      | (Except.ok transactionID, db) =>
        match UpdateTransaction db transactionID 200 with
        | (Except.error _, db) => ("❌ 修改失敗，請稍後再試。", db)
        | (Except.ok _, db) =>
          ("✅ 已將 " ++ C ++ " 的金額從 $" ++ toString (150 : Int) ++
            " 修改為 $" ++ toString (200 : Int) ++ "。", db)) = _
    rw [hFind]
    show (match UpdateTransaction
        { db with failures := [], calls := db.calls + 1 } t0.id 200 with
      | (Except.error _, db) => ("❌ 修改失敗，請稍後再試。", db)
      | (Except.ok _, db) =>
        ("✅ 已將 " ++ C ++ " 的金額從 $" ++ toString (150 : Int) ++
          " 修改為 $" ++ toString (200 : Int) ++ "。", db)) = _
    rw [UpdateTransaction_ok _ _ _ rfl]
  have hB : (db.transactions.map (setTxAmount t0.id 200)).filter
      (fun t => txJoins db u C t && t.amount == (200 : Int)) =
      [{ t0 with amount := (200 : Int) }] := by
    rw [hl, List.map_append, List.map_cons, List.filter_append]
    have e1 : (l1.map (setTxAmount t0.id 200)).filter
        (fun t => txJoins db u C t && t.amount == (200 : Int)) = [] := by
      rw [List.filter_eq_nil_iff]
      intro x hx
      rw [List.mem_map] at hx
      obtain ⟨y, hy, hxy⟩ := hx
      subst hxy
      simp [txJoins_setTxAmount, hf1 y hy]
    have e2 : (l2.map (setTxAmount t0.id 200)).filter
        (fun t => txJoins db u C t && t.amount == (200 : Int)) = [] := by
      rw [List.filter_eq_nil_iff]
      intro x hx
      rw [List.mem_map] at hx
      obtain ⟨y, hy, hxy⟩ := hx
      subst hxy
      simp [txJoins_setTxAmount, hf2 y hy]
    rw [e1, List.filter_cons_of_pos
      (by rw [txJoins_setTxAmount, ht0]; simp [setTxAmount]), e2]
    simp [setTxAmount]
  have hC : (db.transactions.map (setTxAmount t0.id 200)).filter
      (fun t => txJoins db u C t && t.amount == (150 : Int)) = [] := by
    rw [List.filter_eq_nil_iff]
    intro x hx
    rw [List.mem_map] at hx
    obtain ⟨y, hy, hxy⟩ := hx
    subst hxy
    rw [hl] at hy
    rcases List.mem_append.mp hy with hy | hy
    · simp [txJoins_setTxAmount, hf1 y hy]
    · rcases List.mem_cons.mp hy with hy | hy
      · subst hy
        simp [txJoins_setTxAmount, setTxAmount]
      · simp [txJoins_setTxAmount, hf2 y hy]
  rw [hH]
  refine ⟨rfl, ?_, ?_⟩
  · rw [FindTransactionID_found _ u C 200 ({ t0 with amount := (200 : Int) })
      rfl hB]
  · rw [FindTransactionID_notfound _ u C 150 rfl hC]

theorem c9_update_amount_roundtrip_witness :
    (handleUpdateTransaction lunchDB ("u") ("午餐") ("150") ("200")).1 =
      "✅ 已將 " ++ "午餐" ++ " 的金額從 $" ++ toString (150 : Int) ++
        " 修改為 $" ++ toString (200 : Int) ++ "。" ∧
    (FindTransactionID
        (handleUpdateTransaction lunchDB ("u") ("午餐") ("150") ("200")).2
        ("u") ("午餐") 200).1 = Except.ok 1 ∧
    (FindTransactionID
        (handleUpdateTransaction lunchDB ("u") ("午餐") ("150") ("200")).2
        ("u") ("午餐") 150).1 = Except.error () :=
  c9_update_amount_roundtrip lunchDB ("u") ("午餐")
    { id := 1, userID := "u", ttype := "支出", amount := 150, categoryID := 1,
      createdAt := { year := 2025, month := 5, day := 10,
                     hour := 0, minute := 0, second := 0 } }
    rfl (by decide) rfl

theorem lookup_mapSet_self {β : Type} (m : List (String × β)) (k : String)
    (v : β) : List.lookup k (mapSet m k v) = some v := by
  simp [mapSet, List.lookup]

theorem lookup_filter_ne {β : Type} (k target : String) (h : target ≠ k) :
    ∀ m : List (String × β),
      List.lookup target (m.filter (fun p => !(p.1 == k))) =
        List.lookup target m := by
  intro m
  induction m with
  | nil => rfl
  | cons p ps ih =>
    by_cases hp : (p.1 == k) = true
    · rw [List.filter_cons_of_neg (by simp [hp]), ih, List.lookup_cons]
      have htf : (target == p.1) = false := by
        cases h2 : target == p.1 with
        | true =>
          rw [beq_iff_eq] at hp
          exact absurd ((beq_iff_eq.mp h2).trans hp) h
        | false => rfl
      rw [htf]
    · rw [List.filter_cons_of_pos (by simp [hp]), List.lookup_cons,
        List.lookup_cons]
      cases htp : (target == p.1) with
      | true => rfl
      | false => exact ih

theorem lookup_mapSet_ne {β : Type} (m : List (String × β)) (k target : String)
    (v : β) (h : target ≠ k) :
    List.lookup target (mapSet m k v) = List.lookup target m := by
  unfold mapSet
  rw [List.lookup_cons]
  have hbeq : (target == k) = false := by
    cases h2 : target == k with
    | true => exact absurd (beq_iff_eq.mp h2) h
    | false => rfl
  rw [hbeq]
  exact lookup_filter_ne k target h m

theorem partition_fold_preserve (info : List (String × String)) (cat : String) :
    ∀ (totals : List (String × Int))
      (acc : List (String × Int) × List (String × Int)),
      cat ∉ totals.map Prod.fst →
      List.lookup cat (totals.foldl (partitionStep info) acc).1 =
        List.lookup cat acc.1 ∧
      List.lookup cat (totals.foldl (partitionStep info) acc).2 =
        List.lookup cat acc.2 := by
  intro totals
  induction totals with
  | nil => intro acc _; exact ⟨rfl, rfl⟩
  | cons p ps ih =>
    intro acc hnot
    have hne : cat ≠ p.1 := by
      intro hcontra
      exact hnot (by rw [List.map_cons, hcontra]; exact List.mem_cons_self _ _)
    have hps : cat ∉ ps.map Prod.fst := by
      intro hcontra
      exact hnot (by rw [List.map_cons]; exact List.mem_cons_of_mem _ hcontra)
    obtain ⟨ih1, ih2⟩ := ih (partitionStep info acc p) hps
    rw [List.foldl_cons]
    constructor
    · rw [ih1]
      unfold partitionStep
      split <;> split <;>
        first
        | rfl
        | exact lookup_mapSet_ne _ _ _ _ hne
    · rw [ih2]
      unfold partitionStep
      split <;> split <;>
        first
        | rfl
        | exact lookup_mapSet_ne _ _ _ _ hne

theorem partition_fold_lookup (info : List (String × String)) (cat : String)
    (amt : Int) (hinfo : List.lookup cat info = none) :
    ∀ (totals : List (String × Int))
      (acc : List (String × Int) × List (String × Int)),
      (totals.map Prod.fst).Nodup →
      (cat, amt) ∈ totals →
      List.lookup cat acc.1 = none →
      List.lookup cat acc.2 = none →
      List.lookup cat (totals.foldl (partitionStep info) acc).1 =
        (if amt > 0 then some amt else none) ∧
      List.lookup cat (totals.foldl (partitionStep info) acc).2 =
        (if amt > 0 then none else some amt) := by
  intro totals
  induction totals with
  | nil =>
    intro acc _ hmem
    exact absurd hmem (List.not_mem_nil _)
  | cons p ps ih =>
    intro acc hnd hmem h1 h2
    rw [List.map_cons, List.nodup_cons] at hnd
    rw [List.foldl_cons]
    rcases List.mem_cons.mp hmem with hp | hp
    · have hkey : cat ∉ ps.map Prod.fst := by
        rw [← hp] at hnd
        exact hnd.1
      obtain ⟨pr1, pr2⟩ :=
        partition_fold_preserve info cat ps (partitionStep info acc p) hkey
      rw [pr1, pr2, ← hp]
      unfold partitionStep
      rw [hinfo]
      by_cases hamt : amt > 0
      · rw [if_pos hamt, if_pos hamt, if_pos hamt]
        exact ⟨lookup_mapSet_self acc.1 cat amt, h2⟩
      · rw [if_neg hamt, if_neg hamt, if_neg hamt]
        exact ⟨h1, lookup_mapSet_self acc.2 cat amt⟩
    · have hne : cat ≠ p.1 := by
        intro hcontra
        apply hnd.1
        rw [← hcontra]
        exact List.mem_map.mpr ⟨(cat, amt), hp, rfl⟩
      apply ih (partitionStep info acc p) hnd.2 hp
      · unfold partitionStep
        split <;> split <;>
          first
          | exact h1
          | rw [lookup_mapSet_ne _ _ _ _ hne]; exact h1
      · unfold partitionStep
        split <;> split <;>
          first
          | exact h2
          | rw [lookup_mapSet_ne _ _ _ _ hne]; exact h2

/-- C6: in the summary rendering, a category whose type cannot be resolved
from the current category map is placed in the income-detail section exactly
when its summed amount is strictly positive, and in the expense-detail
section otherwise; in particular a zero or negative sum is rendered as
expense. -/
theorem c6_unknown_type_sign_heuristic (info : List (String × String))
    (totals : List (String × Int)) (cat : String) (amt : Int)
    (hinfo : List.lookup cat info = none)
    (hnd : (totals.map Prod.fst).Nodup)
    (hmem : (cat, amt) ∈ totals) :
    List.lookup cat (partitionCats info totals).1 =
      (if amt > 0 then some amt else none) ∧
    List.lookup cat (partitionCats info totals).2 =
      (if amt > 0 then none else some amt) :=
  partition_fold_lookup info cat amt hinfo totals ([], []) hnd hmem rfl rfl

theorem c6_unknown_type_sign_heuristic_witness :
    (List.lookup ("雜項") (partitionCats [] [(("雜項"), (0 : Int))]).1 =
      (if (0 : Int) > 0 then some (0 : Int) else none) ∧
    List.lookup ("雜項") (partitionCats [] [(("雜項"), (0 : Int))]).2 =
      (if (0 : Int) > 0 then none else some (0 : Int))) :=
  c6_unknown_type_sign_heuristic [] [(("雜項"), (0 : Int))] ("雜項") 0
    rfl (by decide) (by decide)

theorem timeDate_in_range (y m : Int) (h1 : 1 ≤ m) (h2 : m ≤ 12) :
    (timeDate y m 1 0 0 0).year = y ∧ (timeDate y m 1 0 0 0).month = m := by
  unfold timeDate
  constructor
  · show y + (m - 1).ediv 12 = y
    have hz : (m - 1).ediv 12 = 0 := by
      apply Int.ediv_eq_zero_of_lt <;> omega
    rw [hz]
    exact add_zero y
  · show (m - 1).emod 12 + 1 = m
    have hz : (m - 1).emod 12 = m - 1 := by
      apply Int.emod_eq_of_lt <;> omega
    rw [hz]
    ring

theorem GetMonthlySummary_ok (db : DB) (u : String) (T : Instant)
    (hnf : db.failures = []) :
    GetMonthlySummary db u T =
      (Except.ok ((groupRows (joinRows
          { db with failures := [], calls := db.calls + 1 } u
          (timeDate T.year T.month 1 0 0 0)
          (addOneMonth (timeDate T.year T.month 1 0 0 0)))).foldl applyRow
        { IncomeTotal := 0, ExpenseTotal := 0, CategoryTotals := [] }),
       { db with failures := [], calls := db.calls + 1 }) := by
  simp only [GetMonthlySummary, dbStep, hnf, List.headD_nil, List.tail_nil]
  rfl

theorem string_exists_append_step (x p y : String)
    (h : ∃ r, x = p ++ r) : ∃ r, x ++ y = p ++ r := by
  obtain ⟨r, hr⟩ := h
  exact ⟨r ++ y, by rw [hr, String.append_assoc]⟩

theorem renderSummary_header (db : DB) (u : String) (T : Instant)
    (hnf : db.failures = []) :
    ∃ rest, (renderSummary db u T).1 =
      "📊 " ++ toString T.year ++ "年" ++ toString T.month ++ "月" ++ rest := by
  unfold renderSummary
  rw [GetMonthlySummary_ok db u T hnf]
  dsimp only
  refine string_exists_append_step _ _ _ (string_exists_append_step _ _ _
    (string_exists_append_step _ _ _ (string_exists_append_step _ _ _
      (string_exists_append_step _ _ _ (string_exists_append_step _ _ _
        (string_exists_append_step _ _ _ ⟨_, rfl⟩))))))

/-- C4: for a settle command with a year/month pair, any parse failure or a
month outside 1..12 yields the format-error reply with the store untouched
(no query is made: the returned DB, including its call counter, is the input
DB); when both parse and the month is in range, the reply is a report whose
header carries exactly that year and month. -/
theorem c4_settle_month_validation :
    (∀ (db : DB) (userID ys ms : String),
      (goAtoi (trimSuffix ys ("年")) = none ∨
        goAtoi (trimSuffix ms ("月")) = none ∨
        (∃ m, goAtoi (trimSuffix ms ("月")) = some m ∧ (m < 1 ∨ m > 12))) →
      handleMonthlySummary db userID [("結算"), ys, ms] =
        ("⚠️ 結算格式錯誤，請使用：結算 或 結算 2025年 5月", db)) ∧
    (∀ (db : DB) (userID ys ms : String) (y m : Int),
      db.failures = [] →
      goAtoi (trimSuffix ys ("年")) = some y →
      goAtoi (trimSuffix ms ("月")) = some m →
      1 ≤ m → m ≤ 12 →
      ∃ rest, (handleMonthlySummary db userID [("結算"), ys, ms]).1 =
        "📊 " ++ toString y ++ "年" ++ toString m ++ "月" ++ rest) := by
  constructor
  · intro db userID ys ms hbad
    show (match goAtoi (trimSuffix ys ("年")), goAtoi (trimSuffix ms ("月")) with
      | some year, some month =>
        if month < 1 ∨ month > 12 then
          ("⚠️ 結算格式錯誤，請使用：結算 或 結算 2025年 5月", db)
        else renderSummary db userID (timeDate year month 1 0 0 0)
      | _, _ => ("⚠️ 結算格式錯誤，請使用：結算 或 結算 2025年 5月", db)) = _
    rcases hbad with hy | hm | ⟨m, hm, hrange⟩
    · rw [hy]
    · rcases hyv : goAtoi (trimSuffix ys ("年")) with _ | yv
      · rfl
      · rw [hm]
    · rcases hyv : goAtoi (trimSuffix ys ("年")) with _ | yv
      · rfl
      · rw [hm]
        show (if m < 1 ∨ m > 12 then
            ("⚠️ 結算格式錯誤，請使用：結算 或 結算 2025年 5月", db)
          else renderSummary db userID (timeDate yv m 1 0 0 0)) = _
        rw [if_pos hrange]
  · intro db userID ys ms y m hnf hy hm hm1 hm2
    have hred : handleMonthlySummary db userID [("結算"), ys, ms] =
        renderSummary db userID (timeDate y m 1 0 0 0) := by
      show (match goAtoi (trimSuffix ys ("年")),
          goAtoi (trimSuffix ms ("月")) with
        | some year, some month =>
          if month < 1 ∨ month > 12 then
            ("⚠️ 結算格式錯誤，請使用：結算 或 結算 2025年 5月", db)
          else renderSummary db userID (timeDate year month 1 0 0 0)
        | _, _ => ("⚠️ 結算格式錯誤，請使用：結算 或 結算 2025年 5月", db)) = _
      rw [hy, hm]
      show (if m < 1 ∨ m > 12 then
          ("⚠️ 結算格式錯誤，請使用：結算 或 結算 2025年 5月", db)
        else renderSummary db userID (timeDate y m 1 0 0 0)) = _
      rw [if_neg (by omega)]
    rw [hred]
    obtain ⟨hyr, hmo⟩ := timeDate_in_range y m hm1 hm2
    obtain ⟨rest, hr⟩ := renderSummary_header db userID
      (timeDate y m 1 0 0 0) hnf
    rw [hyr, hmo] at hr
    exact ⟨rest, hr⟩

theorem c4_settle_month_validation_witness :
    handleMonthlySummary emptyDB ("u") [("結算"), ("2025年"), ("13月")] =
      ("⚠️ 結算格式錯誤，請使用：結算 或 結算 2025年 5月", emptyDB) ∧
    ∃ rest, (handleMonthlySummary emptyDB ("u")
        [("結算"), ("2025年"), ("5月")]).1 =
      "📊 " ++ toString (2025 : Int) ++ "年" ++ toString (5 : Int) ++ "月" ++
        rest :=
  ⟨c4_settle_month_validation.1 emptyDB ("u") ("2025年") ("13月")
      (Or.inr (Or.inr ⟨13, by decide, by decide⟩)),
   c4_settle_month_validation.2 emptyDB ("u") ("2025年") ("5月") 2025 5
      rfl (by decide) (by decide) (by decide) (by decide)⟩

theorem handleAddCategory_ne (db : DB) (u ty nm : String) :
    (handleAddCategory db u ty nm).1 ≠ "" := by
  unfold handleAddCategory
  repeat
    first
    | exact (by decide)
    | apply string_append_ne_empty
    | split
    | dsimp only

theorem handleUpdateCategory_ne (db : DB) (u o n : String) :
    (handleUpdateCategory db u o n).1 ≠ "" := by
  unfold handleUpdateCategory
  repeat
    first
    | exact (by decide)
    | apply string_append_ne_empty
    | split
    | dsimp only

theorem handleDeleteCategory_ne (db : DB) (u nm : String) :
    (handleDeleteCategory db u nm).1 ≠ "" := by
  unfold handleDeleteCategory
  repeat
    first
    | exact (by decide)
    | apply string_append_ne_empty
    | split
    | dsimp only

theorem handleListCategories_ne (db : DB) (u : String) :
    (handleListCategories db u).1 ≠ "" := by
  unfold handleListCategories
  repeat
    first
    | exact (by decide)
    | apply string_append_ne_empty
    | split
    | dsimp only

theorem handleQuickTransaction_ne (db : DB) (u c a : String) :
    (handleQuickTransaction db u c a).1 ≠ "" := by
  unfold handleQuickTransaction
  repeat
    first
    | exact (by decide)
    | apply string_append_ne_empty
    | split
    | dsimp only

theorem handleUpdateTransaction_ne (db : DB) (u c o n : String) :
    (handleUpdateTransaction db u c o n).1 ≠ "" := by
  unfold handleUpdateTransaction
  repeat
    first
    | exact (by decide)
    | apply string_append_ne_empty
    | split
    | dsimp only

theorem handleDeleteTransaction_ne (db : DB) (u c a : String) :
    (handleDeleteTransaction db u c a).1 ≠ "" := by
  unfold handleDeleteTransaction
  repeat
    first
    | exact (by decide)
    | apply string_append_ne_empty
    | split
    | dsimp only

theorem renderSummary_ne (db : DB) (u : String) (T : Instant) :
    (renderSummary db u T).1 ≠ "" := by
  unfold renderSummary
  repeat
    first
    | exact (by decide)
    | apply string_append_ne_empty
    | split
    | dsimp only

theorem handleMonthlySummary_ne (db : DB) (u : String) (tokens : List String) :
    (handleMonthlySummary db u tokens).1 ≠ "" := by
  unfold handleMonthlySummary
  repeat
    first
    | exact (by decide)
    | exact renderSummary_ne _ _ _
    | apply string_append_ne_empty
    | split
    | dsimp only

/-- C8: for every store state and failure schedule, every user id and every
text (empty, whitespace-only, unrecognized or malformed included),
HandleMessage returns a non-empty reply string; no store error escapes to the
caller, every branch ends in a reply. -/
theorem c8_handle_message_always_replies (db : DB) (userID text : String) :
    (HandleMessage db userID text).1 ≠ "" := by
  unfold HandleMessage
  split
  all_goals
    first
    | (dsimp only; exact (by decide))
    | exact handleAddCategory_ne _ _ _ _
    | exact handleUpdateCategory_ne _ _ _ _
    | exact handleDeleteCategory_ne _ _ _
    | exact handleListCategories_ne _ _
    | exact handleQuickTransaction_ne _ _ _ _
    | exact handleUpdateTransaction_ne _ _ _ _ _
    | exact handleDeleteTransaction_ne _ _ _ _
    | exact handleMonthlySummary_ne _ _ _

theorem filter_map_comm {α β : Type} (g : α → β) (p : β → Bool) :
    ∀ l : List α, (l.map g).filter p = (l.filter (fun a => p (g a))).map g := by
  intro l
  induction l with
  | nil => rfl
  | cons x xs ih =>
    by_cases h : p (g x) = true
    · simp [List.filter_cons, h, ih]
    · simp [List.filter_cons, h, ih]

theorem sum_filter_split {α : Type} (q p : α → Bool) (g : α → Int) :
    ∀ l : List α,
      ((l.filter q).map g).sum =
        (((l.filter p).filter q).map g).sum +
          (((l.filter (fun a => !(p a))).filter q).map g).sum := by
  intro l
  induction l with
  | nil => rfl
  | cons x xs ih =>
    by_cases hp : p x = true <;> by_cases hq : q x = true <;>
      simp [List.filter_cons, hp, hq, ih] <;> ring

theorem sum_fibers (f : String → Bool) :
    ∀ (keys : List (String × String)) (rows : List (String × String × Int)),
      keys.Nodup →
      (∀ r ∈ rows, rowKey r ∈ keys) →
      ((keys.filter (fun k => f k.1)).map
        (fun k => ((rows.filter (fun r => rowKey r == k)).map rowAmt).sum)).sum
        = ((rows.filter (fun r => f r.1)).map rowAmt).sum := by
  intro keys
  induction keys with
  | nil =>
    intro rows _ hall
    cases rows with
    | nil => rfl
    | cons r rs =>
      exact absurd (hall r (List.mem_cons_self r rs)) (List.not_mem_nil _)
  | cons k ks ih =>
    intro rows hnd hall
    rw [List.nodup_cons] at hnd
    have hBall : ∀ r ∈ rows.filter (fun r => !(rowKey r == k)),
        rowKey r ∈ ks := by
      intro r hr
      rw [List.mem_filter] at hr
      rcases List.mem_cons.mp (hall r hr.1) with h | h
      · exfalso
        have := hr.2
        rw [h] at this
        simp at this
      · exact h
    have hrest : ∀ k2 ∈ ks,
        rows.filter (fun r => rowKey r == k2) =
          (rows.filter (fun r => !(rowKey r == k))).filter
            (fun r => rowKey r == k2) := by
      intro k2 hk2
      have hkk : k2 ≠ k := fun h => hnd.1 (h ▸ hk2)
      rw [List.filter_filter]
      apply List.filter_congr
      intro r _
      cases hr : rowKey r == k2 with
      | false => simp
      | true =>
        have : rowKey r = k2 := beq_iff_eq.mp hr
        have hrk : (rowKey r == k) = false := by
          cases h2 : rowKey r == k with
          | true =>
            exact absurd ((beq_iff_eq.mp h2).symm.trans this)
              (fun h => hkk h.symm)
          | false => rfl
        simp [hrk]
    have hstep2 : ((ks.filter (fun k2 => f k2.1)).map
          (fun k2 => ((rows.filter (fun r => rowKey r == k2)).map rowAmt).sum)).sum
        = ((ks.filter (fun k2 => f k2.1)).map
          (fun k2 => (((rows.filter (fun r => !(rowKey r == k))).filter
            (fun r => rowKey r == k2)).map rowAmt).sum)).sum := by
      apply congrArg List.sum
      apply List.map_congr_left
      intro k2 hk2
      rw [List.mem_filter] at hk2
      rw [hrest k2 hk2.1]
    have hih := ih (rows.filter (fun r => !(rowKey r == k))) hnd.2 hBall
    have hsplit := sum_filter_split (fun r => f r.1)
      (fun r => rowKey r == k) rowAmt rows
    have hAcase : (rows.filter (fun r => rowKey r == k)).filter
        (fun r => f r.1) =
        (if f k.1 = true then rows.filter (fun r => rowKey r == k) else []) := by
      by_cases hf : f k.1 = true
      · rw [if_pos hf, List.filter_eq_self]
        intro r hr
        rw [List.mem_filter] at hr
        have : rowKey r = k := beq_iff_eq.mp hr.2
        have hr1 : r.1 = k.1 := congrArg Prod.fst this
        rw [hr1]
        exact hf
      · rw [if_neg hf, List.filter_eq_nil_iff]
        intro r hr
        rw [List.mem_filter] at hr
        have : rowKey r = k := beq_iff_eq.mp hr.2
        have hr1 : r.1 = k.1 := congrArg Prod.fst this
        rw [hr1]
        exact hf
    by_cases hf : f k.1 = true
    · have hcons : (k :: ks).filter (fun k2 => f k2.1) =
          k :: ks.filter (fun k2 => f k2.1) := by
        simp [List.filter_cons, hf]
      rw [hcons, List.map_cons, List.sum_cons, hstep2, hih, hsplit, hAcase,
        if_pos hf]
    · have hcons : (k :: ks).filter (fun k2 => f k2.1) =
          ks.filter (fun k2 => f k2.1) := by
        simp [List.filter_cons, hf]
      rw [hcons, hstep2, hih, hsplit, hAcase, if_neg hf]
      simp

theorem grouped_filter_sum (f : String → Bool)
    (rows : List (String × String × Int)) :
    (((groupRows rows).filter (fun r => f r.1)).map rowAmt).sum =
      ((rows.filter (fun r => f r.1)).map rowAmt).sum := by
  unfold groupRows
  rw [filter_map_comm, List.map_map]
  exact sum_fibers f ((rows.map rowKey).dedup) rows (List.nodup_dedup _)
    (fun r hr => List.mem_dedup.mpr (List.mem_map_of_mem rowKey hr))

theorem foldl_applyRow_income :
    ∀ (rows : List (String × String × Int)) (s : Summary),
      (rows.foldl applyRow s).IncomeTotal =
        s.IncomeTotal +
          ((rows.filter (fun r => r.1 == "收入")).map rowAmt).sum := by
  intro rows
  induction rows with
  | nil => intro s; simp
  | cons r rs ih =>
    intro s
    rw [List.foldl_cons, ih]
    by_cases hr : (r.1 == "收入") = true
    · have ha : (applyRow s r).IncomeTotal = s.IncomeTotal + r.2.2 := by
        unfold applyRow
        dsimp only
        rw [if_pos hr]
      have hcons : (r :: rs).filter (fun r2 => r2.1 == "收入") =
          r :: rs.filter (fun r2 => r2.1 == "收入") := by
        simp [List.filter_cons, hr]
      rw [ha, hcons, List.map_cons, List.sum_cons]
      have hamt : rowAmt r = r.2.2 := rfl
      rw [hamt]
      ring
    · have ha : (applyRow s r).IncomeTotal = s.IncomeTotal := by
        unfold applyRow
        dsimp only
        rw [if_neg hr]
      have hcons : (r :: rs).filter (fun r2 => r2.1 == "收入") =
          rs.filter (fun r2 => r2.1 == "收入") := by
        simp [List.filter_cons, hr]
      rw [ha, hcons]

theorem foldl_applyRow_expense :
    ∀ (rows : List (String × String × Int)) (s : Summary),
      (rows.foldl applyRow s).ExpenseTotal =
        s.ExpenseTotal +
          ((rows.filter (fun r => !(r.1 == "收入"))).map rowAmt).sum := by
  intro rows
  induction rows with
  | nil => intro s; simp
  | cons r rs ih =>
    intro s
    rw [List.foldl_cons, ih]
    by_cases hr : (r.1 == "收入") = true
    · have ha : (applyRow s r).ExpenseTotal = s.ExpenseTotal := by
        unfold applyRow
        dsimp only
        rw [if_pos hr]
      have hcons : (r :: rs).filter (fun r2 => !(r2.1 == "收入")) =
          rs.filter (fun r2 => !(r2.1 == "收入")) := by
        simp [List.filter_cons, hr]
      rw [ha, hcons]
    · have ha : (applyRow s r).ExpenseTotal = s.ExpenseTotal + r.2.2 := by
        unfold applyRow
        dsimp only
        rw [if_neg hr]
      have hcons : (r :: rs).filter (fun r2 => !(r2.1 == "收入")) =
          r :: rs.filter (fun r2 => !(r2.1 == "收入")) := by
        simp [List.filter_cons, hr]
      rw [ha, hcons, List.map_cons, List.sum_cons]
      have hamt : rowAmt r = r.2.2 := rfl
      rw [hamt]
      ring

theorem instLt_irrefl (a : Instant) : instLt a a = false := by
  simp [instLt]

theorem instLe_refl (a : Instant) : instLe a a = true := by
  simp [instLe]

theorem start_lt_addOneMonth (y mo : Int) :
    instLt (timeDate y mo 1 0 0 0) (addOneMonth (timeDate y mo 1 0 0 0)) =
      true := by
  unfold addOneMonth timeDate instLt
  dsimp only
  have h0 : 0 ≤ (mo - 1).emod 12 := Int.emod_nonneg _ (by decide)
  have h12 : (mo - 1).emod 12 < 12 := Int.emod_lt_of_pos _ (by decide)
  by_cases hc : (mo - 1).emod 12 + 1 + 1 - 1 ≤ 11
  · have he : ((mo - 1).emod 12 + 1 + 1 - 1).ediv 12 = 0 :=
      Int.ediv_eq_zero_of_lt (by omega) (by omega)
    have hm : ((mo - 1).emod 12 + 1 + 1 - 1).emod 12 =
        (mo - 1).emod 12 + 1 := by
      have h3 : ((mo - 1).emod 12 + 1 + 1 - 1).emod 12 =
          (mo - 1).emod 12 + 1 + 1 - 1 :=
        Int.emod_eq_of_lt (by omega) (by omega)
      omega
    rw [he, hm]
    simp only [Bool.or_eq_true, Bool.and_eq_true, decide_eq_true_eq,
      beq_iff_eq]
    omega
  · have h11 : (mo - 1).emod 12 = 11 := by omega
    have he : ((mo - 1).emod 12 + 1 + 1 - 1).ediv 12 = 1 := by
      rw [h11]
      decide
    have hm : ((mo - 1).emod 12 + 1 + 1 - 1).emod 12 = 0 := by
      rw [h11]
      decide
    rw [he, hm]
    simp only [Bool.or_eq_true, Bool.and_eq_true, decide_eq_true_eq,
      beq_iff_eq]
    omega

/-- C5: the monthly aggregator sums exactly the user transactions whose
created_at lies in the half-open window from the first instant of the
reference month (inclusive) to the first instant of the next month
(exclusive): IncomeTotal is the sum over joined rows whose transaction type
is the income label, ExpenseTotal the sum over all other rows (grouping by
(type, category) does not change either total), a transaction stamped exactly
at the next month start is excluded, and one stamped at the month start is
included. -/
theorem c5_monthly_aggregation (db : DB) (u : String) (m : Instant)
    (hnf : db.failures = []) :
    ∃ s, (GetMonthlySummary db u m).1 = Except.ok s ∧
      s.IncomeTotal = (((joinRows db u (timeDate m.year m.month 1 0 0 0)
          (addOneMonth (timeDate m.year m.month 1 0 0 0))).filter
          (fun r => r.1 == "收入")).map rowAmt).sum ∧
      s.ExpenseTotal = (((joinRows db u (timeDate m.year m.month 1 0 0 0)
          (addOneMonth (timeDate m.year m.month 1 0 0 0))).filter
          (fun r => !(r.1 == "收入"))).map rowAmt).sum ∧
      (∀ t : Transaction,
        t.createdAt = addOneMonth (timeDate m.year m.month 1 0 0 0) →
        inWindow u (timeDate m.year m.month 1 0 0 0)
          (addOneMonth (timeDate m.year m.month 1 0 0 0)) t = false) ∧
      (∀ t : Transaction, t.userID = u →
        t.createdAt = timeDate m.year m.month 1 0 0 0 →
        inWindow u (timeDate m.year m.month 1 0 0 0)
          (addOneMonth (timeDate m.year m.month 1 0 0 0)) t = true) := by
  refine ⟨(groupRows (joinRows db u (timeDate m.year m.month 1 0 0 0)
      (addOneMonth (timeDate m.year m.month 1 0 0 0)))).foldl applyRow
      { IncomeTotal := 0, ExpenseTotal := 0, CategoryTotals := [] },
    ?_, ?_, ?_, ?_, ?_⟩
  · rw [GetMonthlySummary_ok db u m hnf]
    rfl
  · rw [foldl_applyRow_income]
    show (0 : Int) + _ = _
    rw [zero_add]
    exact grouped_filter_sum (fun lab => lab == "收入") _
  · rw [foldl_applyRow_expense]
    show (0 : Int) + _ = _
    rw [zero_add]
    exact grouped_filter_sum (fun lab => !(lab == "收入")) _
  · intro t ht
    unfold inWindow
    rw [ht, instLt_irrefl, Bool.and_false]
  · intro t hu ht
    unfold inWindow
    rw [hu, ht, instLe_refl, start_lt_addOneMonth, beq_self_eq_true]
    rfl

theorem c5_monthly_aggregation_witness :
    ∃ s, (GetMonthlySummary lunchDB ("u")
        { year := 2025, month := 5, day := 10, hour := 0, minute := 0,
          second := 0 }).1 = Except.ok s ∧
      s.IncomeTotal = (((joinRows lunchDB ("u") (timeDate 2025 5 1 0 0 0)
          (addOneMonth (timeDate 2025 5 1 0 0 0))).filter
          (fun r => r.1 == "收入")).map rowAmt).sum ∧
      s.ExpenseTotal = (((joinRows lunchDB ("u") (timeDate 2025 5 1 0 0 0)
          (addOneMonth (timeDate 2025 5 1 0 0 0))).filter
          (fun r => !(r.1 == "收入"))).map rowAmt).sum ∧
      (∀ t : Transaction,
        t.createdAt = addOneMonth (timeDate 2025 5 1 0 0 0) →
        inWindow ("u") (timeDate 2025 5 1 0 0 0)
          (addOneMonth (timeDate 2025 5 1 0 0 0)) t = false) ∧
      (∀ t : Transaction, t.userID = "u" →
        t.createdAt = timeDate 2025 5 1 0 0 0 →
        inWindow ("u") (timeDate 2025 5 1 0 0 0)
          (addOneMonth (timeDate 2025 5 1 0 0 0)) t = true) :=
  c5_monthly_aggregation lunchDB ("u")
    { year := 2025, month := 5, day := 10, hour := 0, minute := 0,
      second := 0 } rfl
